import Mathlib

/-!
Shallow embedding of the QMapControl viewport/zoom/focus engine
(QMapControl.cpp) and of GeometryLineString.cpp, together with theorems
settling the frozen claims about the natural-language specification.

Conventions:
- C++ `double` coordinates are modelled as exact rationals (ℚ); every
  comparison performed by the code is an order comparison, which rounding
  of correctly-rounded IEEE operations preserves monotonically, so the
  rational model is faithful for the containment/ordering facts proved here.
- C++ `int` zoom levels and step counters are modelled as ℤ; no reachable
  operation in the modelled fragment wraps (every increment is guarded by a
  strict comparison against a bound).
- Qt value classes (QPointF, QSizeF, QRectF) are re-implemented following
  the Qt source semantics (including QRectF::contains returning false for
  rectangles that are empty in either dimension).
- The map projection is an external collaborator (Projection.cpp is not part
  of the modelled sources); it is passed as an abstract pair of conversion
  functions, so every theorem quantifies over all projections.
- Mutexes guarding single-threaded rejection logic (the animation try_lock)
  are modelled as a boolean "held" flag; try_lock succeeds iff not held.
-/

namespace QMC

/-- Model of QPointF: a 2D point with rational (for double) components. -/
structure QPointF where
  x : ℚ
  y : ℚ
deriving DecidableEq, Repr

instance : Add QPointF := ⟨fun a b => ⟨a.x + b.x, a.y + b.y⟩⟩

instance : Sub QPointF := ⟨fun a b => ⟨a.x - b.x, a.y - b.y⟩⟩

@[simp]
theorem QPointF.add_def (a b : QPointF) : a + b = ⟨a.x + b.x, a.y + b.y⟩ := rfl

@[simp]
theorem QPointF.sub_def (a b : QPointF) : a - b = ⟨a.x - b.x, a.y - b.y⟩ := rfl

/-- Division of a point by a scalar (used by the animation step `delta_px / m_animated_steps`). -/
def QPointF.divScalar (p : QPointF) (s : ℚ) : QPointF := ⟨p.x / s, p.y / s⟩

/-- Model of QSizeF. -/
structure QSizeF where
  width : ℚ
  height : ℚ
deriving DecidableEq, Repr

/-- Model of QRectF: stored as in Qt, top-left corner plus (possibly negative) width/height. -/
structure QRectF where
  xp : ℚ
  yp : ℚ
  w : ℚ
  h : ℚ
deriving DecidableEq, Repr

/-- QRectF(topLeft, bottomRight) constructor: width/height are the signed differences. -/
def QRectF.fromPoints (topLeft bottomRight : QPointF) : QRectF :=
  ⟨topLeft.x, topLeft.y, bottomRight.x - topLeft.x, bottomRight.y - topLeft.y⟩

/-- QRectF::isNull — both width and height are exactly zero. -/
def QRectF.isNull (r : QRectF) : Bool := r.w = 0 ∧ r.h = 0

/-- QRectF::isValid — strictly positive width and height. -/
def QRectF.isValid (r : QRectF) : Bool := 0 < r.w ∧ 0 < r.h

/-- QRectF::contains(QPointF), following the Qt implementation: the x- and
y-intervals are normalised (negative width/height handled), a rectangle empty
in either dimension contains nothing, and boundary points are contained. -/
def QRectF.containsPoint (r : QRectF) (p : QPointF) : Bool :=
  let l : ℚ := if r.w < 0 then r.xp + r.w else r.xp
  let rr : ℚ := if r.w < 0 then r.xp else r.xp + r.w
  if l = rr then false
  else if p.x < l ∨ p.x > rr then false
  else
    let t : ℚ := if r.h < 0 then r.yp + r.h else r.yp
    let b : ℚ := if r.h < 0 then r.yp else r.yp + r.h
    if t = b then false
    else if p.y < t ∨ p.y > b then false
    else true

/-- QRectF::contains(QRectF), following the Qt implementation: false when either
rectangle is empty in a dimension, otherwise interval inclusion on both axes. -/
def QRectF.containsRect (r : QRectF) (o : QRectF) : Bool :=
  let l1 : ℚ := if r.w < 0 then r.xp + r.w else r.xp
  let r1 : ℚ := if r.w < 0 then r.xp else r.xp + r.w
  if l1 = r1 then false
  else
    let l2 : ℚ := if o.w < 0 then o.xp + o.w else o.xp
    let r2 : ℚ := if o.w < 0 then o.xp else o.xp + o.w
    if l2 = r2 then false
    else if l2 < l1 ∨ r2 > r1 then false
    else
      let t1 : ℚ := if r.h < 0 then r.yp + r.h else r.yp
      let b1 : ℚ := if r.h < 0 then r.yp else r.yp + r.h
      if t1 = b1 then false
      else
        let t2 : ℚ := if o.h < 0 then o.yp + o.h else o.yp
        let b2 : ℚ := if o.h < 0 then o.yp else o.yp + o.h
        if t2 = b2 then false
        else if t2 < t1 ∨ b2 > b1 then false
        else true

/-- The map projection collaborator (geographic coordinate ↔ map pixel at a zoom).
Projection.cpp is an external leaf component; theorems quantify over it. -/
structure Projection where
  toPixelPoint : QPointF → ℤ → QPointF
  toCoordinatePoint : QPointF → ℤ → QPointF

/-- A trivial concrete projection (identity at every zoom), used to instantiate
universally quantified theorems at concrete inputs. -/
def identityProjection : Projection :=
  ⟨fun p _ => p, fun p _ => p⟩

/-- The QMapControl member state relevant to the modelled operations
(focus, zoom bounds and current zoom, pan limit, viewport geometry,
animation bookkeeping, and the published backbuffer metadata). -/
structure MapState where
  map_focus_coord : QPointF
  zoom_minimum : ℤ
  zoom_maximum : ℤ
  current_zoom : ℤ
  limited_viewport_rect_coord : QRectF
  viewport_size_px : QSizeF
  viewport_center_px : QPointF
  animated_map_focus_point : QPointF
  animated_steps : ℤ
  animated_interval : ℤ
  animated_mutex_held : Bool
  primary_screen_backbuffer_rect_px : QRectF
  primary_screen_map_focus_point : QPointF
deriving DecidableEq, Repr

/-- The QMapControl constructor state (QMapControl.cpp lines 115-150):
zoom range 0..17, current zoom at the minimum, focus at the origin,
pan limit disabled (null rect), viewport center at half the viewport size. -/
def mkMapControl (size_px : QSizeF) : MapState :=
  { map_focus_coord := ⟨0, 0⟩
    zoom_minimum := 0
    zoom_maximum := 17
    current_zoom := 0
    limited_viewport_rect_coord := ⟨0, 0, 0, 0⟩
    viewport_size_px := size_px
    viewport_center_px := ⟨size_px.width / 2, size_px.height / 2⟩
    animated_map_focus_point := ⟨0, 0⟩
    animated_steps := 0
    animated_interval := 0
    animated_mutex_held := false
    primary_screen_backbuffer_rect_px := ⟨0, 0, 0, 0⟩
    primary_screen_map_focus_point := ⟨0, 0⟩ }

/-- QMapControl::mapFocusPointPx — the current focus converted to map pixels
via the projection at the current zoom. -/
def mapFocusPointPx (proj : Projection) (st : MapState) : QPointF :=
  proj.toPixelPoint st.map_focus_coord st.current_zoom

/-- QMapControl::toPointPx(click, map_focus_point_px) — the two-argument overload:
a viewport pixel converted to a map pixel against an explicit reference focus. -/
def toPointPx (st : MapState) (click_point_px map_focus_point_px : QPointF) : QPointF :=
  click_point_px - st.viewport_center_px + map_focus_point_px

/-- QMapControl::toPointPx(click) — the one-argument overload, which delegates to
the two-argument overload with the current map focus point. -/
def toPointPxDefault (proj : Projection) (st : MapState) (click_point_px : QPointF) : QPointF :=
  toPointPx st click_point_px (mapFocusPointPx proj st)

/-- QMapControl::getViewportRect — the viewport rectangle converted into the
coordinate system, from focus minus half viewport to focus plus half viewport. -/
def getViewportRect (proj : Projection) (st : MapState) : QRectF :=
  QRectF.fromPoints
    (proj.toCoordinatePoint (mapFocusPointPx proj st - st.viewport_center_px) st.current_zoom)
    (proj.toCoordinatePoint (mapFocusPointPx proj st + st.viewport_center_px) st.current_zoom)

/-- QMapControl::viewportContainsAll — every coordinate of the list is contained
by the current viewport rectangle (the loop exits early on the first failure,
which is List.all). -/
def viewportContainsAll (proj : Projection) (st : MapState) (points_coord : List QPointF) : Bool :=
  points_coord.all (fun p => (getViewportRect proj st).containsPoint p)

/-- QMapControl::calculateMapFocusPoint — componentwise sum of the coordinates
divided by the list size. The division is unguarded in the source; with an
empty list the C++ computes 0.0/0 (NaN), while the rational model yields 0. -/
def calculateMapFocusPoint (points_coord : List QPointF) : QPointF :=
  let sum_x : ℚ := points_coord.foldl (fun acc c => acc + c.x) 0
  let sum_y : ℚ := points_coord.foldl (fun acc c => acc + c.y) 0
  ⟨sum_x / points_coord.length, sum_y / points_coord.length⟩

/-- QMapControl::setMapFocusPoint(coord) — sets the focus unconditionally
(the pan-limit rectangle is not consulted here; a redraw is then scheduled,
which does not change the modelled state). -/
def setMapFocusPoint (point_coord : QPointF) (st : MapState) : MapState :=
  { st with map_focus_coord := point_coord }

/-- QMapControl::scrollView — converts the pixel delta into a candidate focus
coordinate and applies it only when no pan limit is set (null rect) or the
limit rect is valid and contains the candidate. -/
def scrollView (proj : Projection) (delta_px : QPointF) (st : MapState) : MapState :=
  let new_map_focus_coord :=
    proj.toCoordinatePoint (mapFocusPointPx proj st + delta_px) st.current_zoom
  if st.limited_viewport_rect_coord.isNull ||
      (st.limited_viewport_rect_coord.isValid &&
        st.limited_viewport_rect_coord.containsPoint new_map_focus_coord) then
    setMapFocusPoint new_map_focus_coord st
  else
    st

/-- QMapControl::zoomIn — increments the current zoom only when strictly below
the maximum (the scaled-preview pixmap side effects touch no modelled field). -/
def zoomIn (st : MapState) : MapState :=
  if st.current_zoom < st.zoom_maximum then
    { st with current_zoom := st.current_zoom + 1 }
  else
    st

/-- QMapControl::zoomOut — decrements the current zoom only when strictly above
the minimum. -/
def zoomOut (st : MapState) : MapState :=
  if st.zoom_minimum < st.current_zoom then
    { st with current_zoom := st.current_zoom - 1 }
  else
    st

/-- The zoom-in for-loop of QMapControl::setZoom: n single-step zoomIn calls. -/
def zoomInSteps : Nat → MapState → MapState
  | 0, st => st
  | Nat.succ n, st => zoomInSteps n (zoomIn st)

/-- The zoom-out for-loop of QMapControl::setZoom: n single-step zoomOut calls. -/
def zoomOutSteps : Nat → MapState → MapState
  | 0, st => st
  | Nat.succ n, st => zoomOutSteps n (zoomOut st)

/-- QMapControl::setZoom — clamps the target into the current bounds, then
steps the zoom one level at a time toward the target. -/
def setZoom (zoom : ℤ) (st : MapState) : MapState :=
  let z : ℤ :=
    if zoom < st.zoom_minimum then st.zoom_minimum
    else if zoom > st.zoom_maximum then st.zoom_maximum
    else zoom
  if st.current_zoom ≠ z then
    if st.current_zoom > z then
      zoomOutSteps (st.current_zoom - z).toNat st
    else
      zoomInSteps (z - st.current_zoom).toNat st
  else
    st

/-- QMapControl::checkZoom, translated faithfully: the guard of the swap is
written `m_zoom_maximum > m_zoom_minimum` in the source (so the bounds are
swapped exactly when they are already correctly ordered), then the current
zoom is pushed to whichever bound it violates via setZoom. -/
def checkZoom (st : MapState) : MapState :=
  let st1 :=
    if st.zoom_maximum > st.zoom_minimum then
      { st with zoom_minimum := st.zoom_maximum, zoom_maximum := st.zoom_minimum }
    else
      st
  if st1.current_zoom < st1.zoom_minimum then
    setZoom st1.zoom_minimum st1
  else if st1.current_zoom > st1.zoom_maximum then
    setZoom st1.zoom_maximum st1
  else
    st1

/-- QMapControl::setZoomMinimum — store the new minimum then run checkZoom. -/
def setZoomMinimum (zoom : ℤ) (st : MapState) : MapState :=
  checkZoom { st with zoom_minimum := zoom }

/-- QMapControl::setZoomMaximum — store the new maximum then run checkZoom. -/
def setZoomMaximum (zoom : ℤ) (st : MapState) : MapState :=
  checkZoom { st with zoom_maximum := zoom }

/-- The first auto-zoom while-loop of QMapControl::setMapFocusPoint(points):
zoom out while the viewport cannot fit all the coordinates and the current
zoom is above the minimum. -/
def autoZoomOutLoop (proj : Projection) (points_coord : List QPointF) (st : MapState) :
    MapState :=
  if h : viewportContainsAll proj st points_coord = false ∧
      st.zoom_minimum < st.current_zoom then
    autoZoomOutLoop proj points_coord (zoomOut st)
  else
    st
termination_by (st.current_zoom - st.zoom_minimum).toNat
decreasing_by
  simp only [zoomOut, if_pos h.2]
  omega

/-- The second auto-zoom while-loop of QMapControl::setMapFocusPoint(points):
zoom in while the viewport still fits all the coordinates and the current
zoom is below the maximum. -/
def autoZoomInLoop (proj : Projection) (points_coord : List QPointF) (st : MapState) :
    MapState :=
  if h : viewportContainsAll proj st points_coord = true ∧
      st.current_zoom < st.zoom_maximum then
    autoZoomInLoop proj points_coord (zoomIn st)
  else
    st
termination_by (st.zoom_maximum - st.current_zoom).toNat
decreasing_by
  simp only [zoomIn, if_pos h.2]
  omega

/-- QMapControl::setMapFocusPoint(points, auto_zoom) — focus at the mean of
the points; when auto_zoom is requested, zoom out while the points do not
fit, zoom in while they still fit, then one corrective zoom-out if the last
zoom-in overshot. -/
def setMapFocusPointAuto (proj : Projection) (points_coord : List QPointF)
    (auto_zoom : Bool) (st : MapState) : MapState :=
  let st1 := setMapFocusPoint (calculateMapFocusPoint points_coord) st
  if auto_zoom then
    let st2 := autoZoomOutLoop proj points_coord st1
    let st3 := autoZoomInLoop proj points_coord st2
    if viewportContainsAll proj st3 points_coord = false ∧
        st3.zoom_minimum < st3.current_zoom then
      zoomOut st3
    else
      st3
  else
    st1

/-- The required viewport rectangle in map pixels, as computed by
QMapControl::checkBackbuffer: from viewport pixel (0,0) to viewport pixel
(width, height), both converted against the current focus. -/
def requiredViewportRectPx (proj : Projection) (st : MapState) : QRectF :=
  QRectF.fromPoints
    (toPointPxDefault proj st ⟨0, 0⟩)
    (toPointPxDefault proj st ⟨st.viewport_size_px.width, st.viewport_size_px.height⟩)

/-- QMapControl::checkBackbuffer — a redraw is required exactly when the
published backbuffer rectangle does not contain the required viewport
rectangle. -/
def checkBackbuffer (proj : Projection) (st : MapState) : Bool :=
  !(st.primary_screen_backbuffer_rect_px.containsRect (requiredViewportRectPx proj st))

/-- The geometric output of QMapControl::redrawBackbuffer: the captured map
focus point and the new backbuffer coverage rectangle, spanning from viewport
pixel (0,0) minus the viewport center to viewport pixel (width,height) plus
the viewport center, both converted against the captured focus (twice the
viewport size, centered on the captured focus). -/
def redrawBackbufferResult (proj : Projection) (st : MapState) : QPointF × QRectF :=
  let backbuffer_map_focus_px := mapFocusPointPx proj st
  let backbuffer_rect_px :=
    QRectF.fromPoints
      (toPointPx st (QPointF.mk 0 0 - st.viewport_center_px) backbuffer_map_focus_px)
      (toPointPx st
        (QPointF.mk st.viewport_size_px.width st.viewport_size_px.height +
          st.viewport_center_px)
        backbuffer_map_focus_px)
  (backbuffer_map_focus_px, backbuffer_rect_px)

/-- QMapControl::updatePrimaryScreen — the atomic publish: the new backbuffer
rectangle and captured focus replace the previous ones. -/
def updatePrimaryScreen (backbuffer_rect_px : QRectF) (backbuffer_map_focus_px : QPointF)
    (st : MapState) : MapState :=
  { st with
    primary_screen_backbuffer_rect_px := backbuffer_rect_px
    primary_screen_map_focus_point := backbuffer_map_focus_px }

/-- QMapControl::setMapFocusPointAnimated — the animation mutex try_lock
succeeds exactly when no animation holds it; on success the target, step
count and interval are stored and the mutex is held until the last tick; on
failure the request is rejected with no state change. -/
def setMapFocusPointAnimated (coordinate : QPointF) (steps : ℤ) (step_interval : ℤ)
    (st : MapState) : MapState :=
  if st.animated_mutex_held = false then
    { st with
      animated_mutex_held := true
      animated_map_focus_point := coordinate
      animated_steps := steps
      animated_interval := step_interval }
  else
    st

/-- QMapControl::animatedTick — while steps remain, scroll by the remaining
delta divided by the remaining step count and decrement the step count;
once no steps remain, release the animation mutex. -/
def animatedTick (proj : Projection) (st : MapState) : MapState :=
  if 0 < st.animated_steps then
    let start_px := proj.toPixelPoint st.map_focus_coord st.current_zoom
    let dest_px := proj.toPixelPoint st.animated_map_focus_point st.current_zoom
    let delta_px := dest_px - start_px
    let st1 := scrollView proj (delta_px.divScalar (st.animated_steps : ℚ)) st
    { st1 with animated_steps := st1.animated_steps - 1 }
  else
    { st with animated_mutex_held := false }

/-- n successive animation timer ticks. -/
def animatedTickIter (proj : Projection) : Nat → MapState → MapState
  | 0, st => st
  | Nat.succ n, st => animatedTickIter proj n (animatedTick proj st)

/-- The state of a GeometryLineString: its ordered constituent points and the
touched-point list recorded by the last hit-test. The point type (a shared
GeometryPoint handle) and the selection-area type (a QGraphicsItem) are
abstract. -/
structure GeometryLineString (P : Type) where
  points : List P
  touched_points : List P

/-- The point-accumulation loop of GeometryLineString::touches: walk the
constituent points in order and keep those that individually touch the area
(point_touches abstracts GeometryPoint::touches, an external collaborator). -/
def touchesAccum {P A : Type} (point_touches : P → A → ℤ → Bool) (area_px : A)
    (controller_zoom : ℤ) : List P → List P
  | [] => []
  | p :: ps =>
    if point_touches p area_px controller_zoom then
      p :: touchesAccum point_touches area_px controller_zoom ps
    else
      touchesAccum point_touches area_px controller_zoom ps

/-- GeometryLineString::touches — clear the previous touched-point list, then,
when the geometry is visible at this zoom (is_visible abstracts the inherited
Geometry::isVisible zoom-range test), record exactly the constituent points
touching the area; the returned flag is set when at least one point touched. -/
def lineStringTouches {P A : Type} (is_visible : ℤ → Bool)
    (point_touches : P → A → ℤ → Bool) (g : GeometryLineString P) (area_px : A)
    (controller_zoom : ℤ) : GeometryLineString P × Bool :=
  let cleared : GeometryLineString P := { g with touched_points := [] }
  if is_visible controller_zoom then
    let result : GeometryLineString P :=
      { cleared with
        touched_points := touchesAccum point_touches area_px controller_zoom g.points }
    (result, !result.touched_points.isEmpty)
  else
    (cleared, false)

section Theorems

/-! Helper lemmas shared across claims. -/

/-- A valid rectangle (positive width and height) is never the null rectangle. -/
theorem QRectF.isValid_not_isNull (r : QRectF) (h : r.isValid = true) : r.isNull = false := by
  simp only [QRectF.isValid, decide_eq_true_eq] at h
  simp only [QRectF.isNull, decide_eq_false_iff_not, not_and]
  intro hw
  linarith [h.1]

/-- Sufficient conditions for Qt rectangle containment: both rectangles have
positive extent and the inner interval bounds lie within the outer ones. -/
theorem QRectF.containsRect_of (r o : QRectF)
    (hrw : 0 < r.w) (hrh : 0 < r.h) (how : 0 < o.w) (hoh : 0 < o.h)
    (h1 : r.xp ≤ o.xp) (h2 : o.xp + o.w ≤ r.xp + r.w)
    (h3 : r.yp ≤ o.yp) (h4 : o.yp + o.h ≤ r.yp + r.h) :
    r.containsRect o = true := by
  have hrw' : ¬ r.w < 0 := by linarith
  have how' : ¬ o.w < 0 := by linarith
  have hrh' : ¬ r.h < 0 := by linarith
  have hoh' : ¬ o.h < 0 := by linarith
  simp only [QRectF.containsRect, if_neg hrw', if_neg how', if_neg hrh', if_neg hoh']
  rw [if_neg (by intro hq; linarith : ¬ r.xp = r.xp + r.w),
    if_neg (by intro hq; linarith : ¬ o.xp = o.xp + o.w),
    if_neg (by rintro (hq | hq) <;> linarith : ¬ (o.xp < r.xp ∨ o.xp + o.w > r.xp + r.w)),
    if_neg (by intro hq; linarith : ¬ r.yp = r.yp + r.h),
    if_neg (by intro hq; linarith : ¬ o.yp = o.yp + o.h),
    if_neg (by rintro (hq | hq) <;> linarith : ¬ (o.yp < r.yp ∨ o.yp + o.h > r.yp + r.h))]

/-- The summation loop of calculateMapFocusPoint computes the sum of the mapped components. -/
theorem foldl_add_eq_sum (f : QPointF → ℚ) :
    ∀ (l : List QPointF) (a : ℚ), l.foldl (fun acc c => acc + f c) a = a + (l.map f).sum := by
  intro l
  induction l with
  | nil => intro a; simp
  | cons p ps ih =>
    intro a
    simp only [List.foldl_cons, List.map_cons, List.sum_cons, ih]
    ring

/-- The point-accumulation loop of GeometryLineString::touches is a filter of
the constituent points by the individual touch test. -/
theorem touchesAccum_eq_filter {P A : Type} (point_touches : P → A → ℤ → Bool)
    (area_px : A) (zoom : ℤ) :
    ∀ l : List P, touchesAccum point_touches area_px zoom l =
      l.filter (fun p => point_touches p area_px zoom) := by
  intro l
  induction l with
  | nil => rfl
  | cons p ps ih =>
    by_cases h : point_touches p area_px zoom = true
    · simp [touchesAccum, h, List.filter_cons, ih]
    · simp only [Bool.not_eq_true] at h
      simp [touchesAccum, h, List.filter_cons, ih]

/-- Neither scrollView branch changes the animation step counter. -/
theorem scrollView_animated_steps (proj : Projection) (delta_px : QPointF) (st : MapState) :
    (scrollView proj delta_px st).animated_steps = st.animated_steps := by
  simp only [scrollView, setMapFocusPoint]
  split <;> rfl

/-- An animation tick decrements the step counter while steps remain and
leaves it unchanged once exhausted. -/
theorem animatedTick_animated_steps (proj : Projection) (st : MapState) :
    (animatedTick proj st).animated_steps =
      if 0 < st.animated_steps then st.animated_steps - 1 else st.animated_steps := by
  unfold animatedTick
  split <;> simp [scrollView_animated_steps]

/-- Enough animation ticks always release the animation mutex. -/
theorem animatedTickIter_releases (proj : Projection) :
    ∀ (n : Nat) (st : MapState), st.animated_steps.toNat ≤ n →
      (animatedTickIter proj (n + 1) st).animated_mutex_held = false := by
  intro n
  induction n with
  | zero =>
    intro st h
    have hs : ¬ 0 < st.animated_steps := by omega
    simp [animatedTickIter, animatedTick, hs]
  | succ n ih =>
    intro st h
    rw [show n + 1 + 1 = (n + 1) + 1 from rfl, animatedTickIter]
    apply ih
    have := animatedTick_animated_steps proj st
    by_cases hs : 0 < st.animated_steps
    · rw [if_pos hs] at this
      omega
    · rw [if_neg hs] at this
      omega

/-! Concrete states used to instantiate the theorems. -/

/-- A map state with a set and valid pan-limit rectangle from (0,0) to (10,10)
and focus (5,5) inside it. -/
def panLimitState : MapState :=
  { mkMapControl ⟨400, 400⟩ with
    limited_viewport_rect_coord := QRectF.fromPoints ⟨0, 0⟩ ⟨10, 10⟩
    map_focus_coord := ⟨5, 5⟩ }

/-- The constructor state zoomed all the way to the maximum (zoom 17 of 0..17). -/
def maxZoomState : MapState :=
  { mkMapControl ⟨400, 400⟩ with current_zoom := 17 }

/-- The constructor state with an animation in progress: the animation mutex is
held with 3 steps remaining toward (7,7). -/
def animatingState : MapState :=
  { mkMapControl ⟨400, 400⟩ with
    animated_mutex_held := true
    animated_steps := 3
    animated_map_focus_point := ⟨7, 7⟩ }

/-! Claim C1 — pan-limit rejection. -/

/-- C1 counterexample: the claim states that with a set and valid pan-limit
rectangle, a direct setMapFocusPoint of a coordinate outside the rectangle is
rejected as a no-op. In the code setMapFocusPoint stores the focus
unconditionally: at the concrete state panLimitState (valid limit rect
(0,0)-(10,10)) and candidate focus (20,20) outside it, the focus changes. -/
theorem setMapFocusPoint_ignores_pan_limit :
    panLimitState.limited_viewport_rect_coord.isValid = true ∧
    panLimitState.limited_viewport_rect_coord.containsPoint ⟨20, 20⟩ = false ∧
    (setMapFocusPoint ⟨20, 20⟩ panLimitState).map_focus_coord ≠
      panLimitState.map_focus_coord := by
  refine ⟨?_, ?_, ?_⟩
  · norm_num [panLimitState, mkMapControl, QRectF.fromPoints, QRectF.isValid]
  · norm_num [panLimitState, mkMapControl, QRectF.fromPoints, QRectF.containsPoint]
  · norm_num [panLimitState, mkMapControl, setMapFocusPoint, QPointF.mk.injEq]

/-- C1 (amended): only scrollView enforces the pan limit. For every projection,
state whose pan-limit rectangle is set and valid, and scroll delta whose
resulting candidate focus falls outside that rectangle, the scroll is rejected
as a no-op: the focus is unchanged. (A direct setMapFocusPoint is unconditional.) -/
theorem scrollView_rejects_outside_pan_limit (proj : Projection) (st : MapState)
    (delta_px : QPointF)
    (hvalid : st.limited_viewport_rect_coord.isValid = true)
    (hout : st.limited_viewport_rect_coord.containsPoint
      (proj.toCoordinatePoint (mapFocusPointPx proj st + delta_px) st.current_zoom) = false) :
    (scrollView proj delta_px st).map_focus_coord = st.map_focus_coord := by
  have hnull := QRectF.isValid_not_isNull _ hvalid
  simp only [QPointF.add_def] at hout
  simp [scrollView, hnull, hout]

/-- C1 witness: the amended theorem applied at panLimitState with the identity
projection and a scroll of +100 pixels in x, whose candidate focus (105,5)
lies outside the limit rectangle. -/
theorem scrollView_rejects_outside_pan_limit_witness :
    panLimitState.limited_viewport_rect_coord.isValid = true ∧
    panLimitState.limited_viewport_rect_coord.containsPoint
      (identityProjection.toCoordinatePoint
        (mapFocusPointPx identityProjection panLimitState + ⟨100, 0⟩)
        panLimitState.current_zoom) = false ∧
    (scrollView identityProjection ⟨100, 0⟩ panLimitState).map_focus_coord =
      panLimitState.map_focus_coord := by
  have hvalid : panLimitState.limited_viewport_rect_coord.isValid = true := by
    norm_num [panLimitState, mkMapControl, QRectF.fromPoints, QRectF.isValid]
  have hout : panLimitState.limited_viewport_rect_coord.containsPoint
      (identityProjection.toCoordinatePoint
        (mapFocusPointPx identityProjection panLimitState + ⟨100, 0⟩)
        panLimitState.current_zoom) = false := by
    norm_num [panLimitState, mkMapControl, QRectF.fromPoints, QRectF.containsPoint,
      identityProjection, mapFocusPointPx]
  exact ⟨hvalid, hout,
    scrollView_rejects_outside_pan_limit identityProjection panLimitState ⟨100, 0⟩
      hvalid hout⟩

/-! Claim C2 — the zoom-bounds invariant and the checkZoom swap. -/

/-- C2 (code bug): checkZoom is meant (per its own comment) to ensure
zoomMin ≤ zoomMax, but its guard is inverted: it swaps the bounds exactly when
they are already correctly ordered. Evaluating the code: setZoomMinimum 20 on
the constructor state (bounds 0..17) leaves the crossed bounds min=20 > max=17
unswapped with current zoom 17 outside [20,17]; while setZoomMinimum 1 swaps
the correctly ordered bounds 1 ≤ 17 into min=17, max=1. -/
theorem checkZoom_swap_guard_inverted :
    (setZoomMinimum 20 (mkMapControl ⟨400, 400⟩)).zoom_minimum = 20 ∧
    (setZoomMinimum 20 (mkMapControl ⟨400, 400⟩)).zoom_maximum = 17 ∧
    (setZoomMinimum 20 (mkMapControl ⟨400, 400⟩)).current_zoom = 17 ∧
    ¬ ((setZoomMinimum 20 (mkMapControl ⟨400, 400⟩)).zoom_minimum ≤
        (setZoomMinimum 20 (mkMapControl ⟨400, 400⟩)).zoom_maximum) ∧
    (setZoomMinimum 1 (mkMapControl ⟨400, 400⟩)).zoom_minimum = 17 ∧
    (setZoomMinimum 1 (mkMapControl ⟨400, 400⟩)).zoom_maximum = 1 := by
  decide

/-! Claim C3 — zoomIn then zoomOut. -/

/-- C3 counterexample: the claim states the pair zoomIn();zoomOut() restores
the zoom for every viewport state. At the maximum zoom (maxZoomState, zoom 17
of 0..17) zoomIn is a no-op while zoomOut still decrements, so the pair ends
at zoom 16. -/
theorem zoomIn_zoomOut_at_max :
    (zoomOut (zoomIn maxZoomState)).current_zoom ≠ maxZoomState.current_zoom := by
  decide

/-- C3 (amended): whenever zoomMin ≤ zoomCurrent < zoomMax, zoomIn() followed
immediately by zoomOut() restores zoomCurrent to its prior value (at
zoomCurrent = zoomMax the zoomIn is a no-op and the pair decrements instead). -/
theorem zoomIn_zoomOut_restores (st : MapState)
    (hmin : st.zoom_minimum ≤ st.current_zoom)
    (hmax : st.current_zoom < st.zoom_maximum) :
    (zoomOut (zoomIn st)).current_zoom = st.current_zoom := by
  simp only [zoomIn, if_pos hmax, zoomOut]
  split <;> simp_all <;> omega

/-- C3 witness: the amended theorem applied at the constructor state
(zoom 0 within bounds 0 ≤ 0 < 17). -/
theorem zoomIn_zoomOut_restores_witness :
    (mkMapControl ⟨400, 400⟩).zoom_minimum ≤ (mkMapControl ⟨400, 400⟩).current_zoom ∧
    (mkMapControl ⟨400, 400⟩).current_zoom < (mkMapControl ⟨400, 400⟩).zoom_maximum ∧
    (zoomOut (zoomIn (mkMapControl ⟨400, 400⟩))).current_zoom =
      (mkMapControl ⟨400, 400⟩).current_zoom :=
  ⟨by decide, by decide,
    zoomIn_zoomOut_restores (mkMapControl ⟨400, 400⟩) (by decide) (by decide)⟩

/-! Claim C6 — the viewport-to-map-pixel conversion. -/

/-- C6: for every viewport pixel point p, the conversion returns exactly
p - viewportCenter + focusMapPixel: the one-argument overload uses the current
focus converted via the projection at the current zoom, and the two-argument
overload uses the explicit reference focus map-pixel point passed by the caller. -/
theorem toPointPx_spec (proj : Projection) (st : MapState) (p reference_focus_px : QPointF) :
    toPointPxDefault proj st p =
      p - st.viewport_center_px + proj.toPixelPoint st.map_focus_coord st.current_zoom ∧
    toPointPx st p reference_focus_px = p - st.viewport_center_px + reference_focus_px :=
  ⟨rfl, rfl⟩

/-! Claim C7 — GeometryLineString::touches replaces the touched-point list. -/

/-- C7: for every visibility predicate, per-point touch test, line string,
selection area and zoom, one call to touches (1) leaves the touched-point list
equal to exactly the subset of the constituent points that touch the area at
that zoom, in order, and the empty list when the curve is not visible at that
zoom; (2) returns true iff that recorded subset is non-empty; and (3) computes
a result independent of whatever touched-point list any previous call left, so
each call replaces rather than accumulates. -/
theorem lineStringTouches_spec {P A : Type} (is_visible : ℤ → Bool)
    (point_touches : P → A → ℤ → Bool) (g : GeometryLineString P) (area_px : A)
    (zoom : ℤ) :
    ((lineStringTouches is_visible point_touches g area_px zoom).1.touched_points =
      if is_visible zoom then g.points.filter (fun p => point_touches p area_px zoom)
      else []) ∧
    ((lineStringTouches is_visible point_touches g area_px zoom).2 = true ↔
      (lineStringTouches is_visible point_touches g area_px zoom).1.touched_points ≠ []) ∧
    (∀ prior : List P,
      lineStringTouches is_visible point_touches { g with touched_points := prior }
          area_px zoom =
        lineStringTouches is_visible point_touches g area_px zoom) := by
  refine ⟨?_, ?_, ?_⟩
  · by_cases h : is_visible zoom = true
    · simp [lineStringTouches, h, touchesAccum_eq_filter]
    · simp only [Bool.not_eq_true] at h
      simp [lineStringTouches, h]
  · by_cases h : is_visible zoom = true
    · simp [lineStringTouches, h, List.isEmpty_iff]
    · simp only [Bool.not_eq_true] at h
      simp [lineStringTouches, h]
  · intro prior
    rfl

/-! Claim C8 — concurrent animation requests are rejected, not queued. -/

/-- C8: when an animation is in progress (the animation mutex is held), a new
setMapFocusPointAnimated request is rejected as a complete no-op — the whole
state, in particular the in-progress animation's target focus, remaining step
count and step interval, is unchanged — and the first animation still proceeds
to completion: after remaining-steps + 1 further ticks the animation mutex is
released. -/
theorem animateFocus_reject_noop (proj : Projection) (st : MapState)
    (coordinate : QPointF) (steps step_interval : ℤ)
    (h : st.animated_mutex_held = true) :
    setMapFocusPointAnimated coordinate steps step_interval st = st ∧
    (animatedTickIter proj (st.animated_steps.toNat + 1) st).animated_mutex_held = false := by
  constructor
  · simp [setMapFocusPointAnimated, h]
  · exact animatedTickIter_releases proj _ st (le_refl _)

/-- C8 witness: the theorem applied at animatingState (mutex held, 3 steps
remaining) with a second request toward (1,2); the request is a no-op and the
first animation releases the mutex after 4 ticks. -/
theorem animateFocus_reject_noop_witness :
    animatingState.animated_mutex_held = true ∧
    (setMapFocusPointAnimated ⟨1, 2⟩ 5 100 animatingState = animatingState ∧
      (animatedTickIter identityProjection (animatingState.animated_steps.toNat + 1)
        animatingState).animated_mutex_held = false) :=
  ⟨rfl, animateFocus_reject_noop identityProjection animatingState ⟨1, 2⟩ 5 100 rfl⟩

/-! Claim C5 — backbuffer sufficiency after a forced redraw. -/

/-- C5: after a forced backbuffer redraw completes and its result (coverage
rectangle and captured focus) is published by updatePrimaryScreen, the
required viewport rectangle in map pixels — computed at the focus captured
for that redraw — is fully contained in the published coverage rectangle, so
checkBackbuffer reports that no redraw is needed. Hypotheses: the viewport
has positive width and height (Qt containment is vacuously false for empty
rectangles, and the source treats a zero-size viewport as a no-op case), and
the viewport center is half the viewport size (the invariant established by
the constructor and setViewportSize, restated at the computation site by the
source comment). -/
theorem redraw_publishes_sufficient_backbuffer (proj : Projection) (st : MapState)
    (hw : 0 < st.viewport_size_px.width) (hh : 0 < st.viewport_size_px.height)
    (hc : st.viewport_center_px =
      ⟨st.viewport_size_px.width / 2, st.viewport_size_px.height / 2⟩) :
    checkBackbuffer proj
      (updatePrimaryScreen (redrawBackbufferResult proj st).2
        (redrawBackbufferResult proj st).1 st) = false := by
  have hcontains :
      (updatePrimaryScreen (redrawBackbufferResult proj st).2
          (redrawBackbufferResult proj st).1 st).primary_screen_backbuffer_rect_px.containsRect
        (requiredViewportRectPx proj
          (updatePrimaryScreen (redrawBackbufferResult proj st).2
            (redrawBackbufferResult proj st).1 st)) = true := by
    apply QRectF.containsRect_of <;>
      (simp only [updatePrimaryScreen, redrawBackbufferResult, requiredViewportRectPx,
        toPointPxDefault, toPointPx, mapFocusPointPx, QRectF.fromPoints,
        QPointF.add_def, QPointF.sub_def, hc]
       linarith)
  simp [checkBackbuffer, hcontains]

/-- C5 witness: the theorem applied at the constructor state with a 400 by 400
viewport and the identity projection. -/
theorem redraw_publishes_sufficient_backbuffer_witness :
    0 < (mkMapControl ⟨400, 400⟩).viewport_size_px.width ∧
    0 < (mkMapControl ⟨400, 400⟩).viewport_size_px.height ∧
    (mkMapControl ⟨400, 400⟩).viewport_center_px =
      ⟨(mkMapControl ⟨400, 400⟩).viewport_size_px.width / 2,
        (mkMapControl ⟨400, 400⟩).viewport_size_px.height / 2⟩ ∧
    checkBackbuffer identityProjection
      (updatePrimaryScreen
        (redrawBackbufferResult identityProjection (mkMapControl ⟨400, 400⟩)).2
        (redrawBackbufferResult identityProjection (mkMapControl ⟨400, 400⟩)).1
        (mkMapControl ⟨400, 400⟩)) = false := by
  refine ⟨by norm_num [mkMapControl], by norm_num [mkMapControl], rfl, ?_⟩
  exact redraw_publishes_sufficient_backbuffer identityProjection (mkMapControl ⟨400, 400⟩)
    (by norm_num [mkMapControl]) (by norm_num [mkMapControl]) rfl

/-! Claim C4 — auto-zoom containment. -/

/-- The first auto-zoom loop establishes containment or bottoms out at the
minimum zoom, and preserves the minimum bound and the lower zoom invariant. -/
theorem autoZoomOutLoop_spec (proj : Projection) (points_coord : List QPointF)
    (st : MapState) (h : st.zoom_minimum ≤ st.current_zoom) :
    (viewportContainsAll proj (autoZoomOutLoop proj points_coord st) points_coord = true ∨
      (autoZoomOutLoop proj points_coord st).current_zoom =
        (autoZoomOutLoop proj points_coord st).zoom_minimum) ∧
    (autoZoomOutLoop proj points_coord st).zoom_minimum ≤
      (autoZoomOutLoop proj points_coord st).current_zoom := by
  revert h
  induction st using autoZoomOutLoop.induct proj points_coord with
  | case1 st hcond ih =>
    intro _
    rw [autoZoomOutLoop, dif_pos hcond]
    apply ih
    simp only [zoomOut, if_pos hcond.2]
    omega
  | case2 st hcond =>
    intro h
    rw [autoZoomOutLoop, dif_neg hcond]
    rcases Bool.eq_false_or_eq_true (viewportContainsAll proj st points_coord) with ht | hf
    · exact ⟨Or.inl ht, h⟩
    · have hnlt : ¬ st.zoom_minimum < st.current_zoom := fun hlt => hcond ⟨hf, hlt⟩
      exact ⟨Or.inr (by omega), h⟩

/-- The second auto-zoom loop either preserves containment, or did nothing, or
overshot by exactly one level: one zoomOut restores containment. It also
preserves the lower zoom invariant. -/
theorem autoZoomInLoop_spec (proj : Projection) (points_coord : List QPointF)
    (st : MapState) (h : st.zoom_minimum ≤ st.current_zoom) :
    (viewportContainsAll proj (autoZoomInLoop proj points_coord st) points_coord = true ∨
      (autoZoomInLoop proj points_coord st = st ∨
        ((autoZoomInLoop proj points_coord st).zoom_minimum <
            (autoZoomInLoop proj points_coord st).current_zoom ∧
          viewportContainsAll proj (zoomOut (autoZoomInLoop proj points_coord st))
            points_coord = true))) ∧
    (autoZoomInLoop proj points_coord st).zoom_minimum ≤
      (autoZoomInLoop proj points_coord st).current_zoom := by
  revert h
  induction st using autoZoomInLoop.induct proj points_coord with
  | case1 st hcond ih =>
    intro h
    rw [autoZoomInLoop, dif_pos hcond]
    have hmono : st.zoom_minimum ≤ (zoomIn st).current_zoom := by
      simp only [zoomIn, if_pos hcond.2]
      omega
    have hz : (zoomIn st).zoom_minimum = st.zoom_minimum := by
      simp only [zoomIn, if_pos hcond.2]
    obtain ⟨hmain, hinv⟩ := ih (hz ▸ hmono)
    refine ⟨?_, hinv⟩
    rcases hmain with hcont | heq | hover
    · exact Or.inl hcont
    · right
      right
      rw [heq]
      constructor
      · simp only [zoomIn, if_pos hcond.2]
        omega
      · have : zoomOut (zoomIn st) = st := by
          simp only [zoomIn, if_pos hcond.2, zoomOut]
          rw [if_pos (by omega : st.zoom_minimum < st.current_zoom + 1)]
          simp
        rw [this]
        exact hcond.1
    · exact Or.inr (Or.inr hover)
  | case2 st hcond =>
    intro h
    rw [autoZoomInLoop, dif_neg hcond]
    exact ⟨Or.inr (Or.inl rfl), h⟩

/-- C4: for every projection and coordinate list, after
setMapFocusPoint(points, autoZoom = true) — zoom out while not all points
fit, zoom in while they still fit, one corrective zoom-out if the last
zoom-in overshot — either every point of the list is contained in the
viewport rectangle, or the current zoom equals the minimum zoom. Hypothesis:
the zoom invariant zoomMin ≤ zoomCurrent holds on entry. -/
theorem setMapFocusPointAuto_containment (proj : Projection)
    (points_coord : List QPointF) (st : MapState)
    (h : st.zoom_minimum ≤ st.current_zoom) :
    viewportContainsAll proj (setMapFocusPointAuto proj points_coord true st)
        points_coord = true ∨
    (setMapFocusPointAuto proj points_coord true st).current_zoom =
      (setMapFocusPointAuto proj points_coord true st).zoom_minimum := by
  have h1 : (setMapFocusPoint (calculateMapFocusPoint points_coord) st).zoom_minimum ≤
      (setMapFocusPoint (calculateMapFocusPoint points_coord) st).current_zoom := h
  obtain ⟨hout, h2⟩ :=
    autoZoomOutLoop_spec proj points_coord
      (setMapFocusPoint (calculateMapFocusPoint points_coord) st) h1
  obtain ⟨hin, h3⟩ :=
    autoZoomInLoop_spec proj points_coord
      (autoZoomOutLoop proj points_coord
        (setMapFocusPoint (calculateMapFocusPoint points_coord) st)) h2
  simp only [setMapFocusPointAuto, if_true]
  rcases hin with hcont | heq | hover
  · rw [if_neg (by simp [hcont])]
    exact Or.inl hcont
  · rw [heq]
    rw [heq] at h3
    rcases hout with hcont2 | hmin2
    · rw [if_neg (by simp [hcont2])]
      exact Or.inl hcont2
    · rw [if_neg (fun hcnd => absurd hcnd.2 (by omega))]
      exact Or.inr hmin2
  · rcases Bool.eq_false_or_eq_true
        (viewportContainsAll proj
          (autoZoomInLoop proj points_coord
            (autoZoomOutLoop proj points_coord
              (setMapFocusPoint (calculateMapFocusPoint points_coord) st)))
          points_coord) with ht | hf
    · rw [if_neg (by simp [ht])]
      exact Or.inl ht
    · rw [if_pos ⟨hf, hover.1⟩]
      exact Or.inl hover.2

/-- C4 witness: the theorem applied at the constructor state (zoom invariant
0 ≤ 0) with the identity projection and the single point (0,0). -/
theorem setMapFocusPointAuto_containment_witness :
    (mkMapControl ⟨400, 400⟩).zoom_minimum ≤ (mkMapControl ⟨400, 400⟩).current_zoom ∧
    (viewportContainsAll identityProjection
        (setMapFocusPointAuto identityProjection [⟨0, 0⟩] true (mkMapControl ⟨400, 400⟩))
        [⟨0, 0⟩] = true ∨
      (setMapFocusPointAuto identityProjection [⟨0, 0⟩] true
          (mkMapControl ⟨400, 400⟩)).current_zoom =
        (setMapFocusPointAuto identityProjection [⟨0, 0⟩] true
          (mkMapControl ⟨400, 400⟩)).zoom_minimum) :=
  ⟨by decide,
    setMapFocusPointAuto_containment identityProjection [⟨0, 0⟩]
      (mkMapControl ⟨400, 400⟩) (by decide)⟩

/-! Claim C10 — calculateMapFocusPoint is the arithmetic mean. -/

/-- C10: for every non-empty coordinate list, calculateMapFocusPoint returns
the componentwise arithmetic mean of the points — componentwise sum divided by
the list length, equivalently the unique point whose components scaled by the
length give back the componentwise sums (which uses non-emptiness; the
division by the size in the source is unguarded, so non-emptiness is a
required precondition for the result to be well defined: on the empty list the
C++ divides 0.0 by 0). -/
theorem calculateMapFocusPoint_is_mean (points_coord : List QPointF)
    (h : points_coord ≠ []) :
    calculateMapFocusPoint points_coord =
      ⟨(points_coord.map QPointF.x).sum / points_coord.length,
        (points_coord.map QPointF.y).sum / points_coord.length⟩ ∧
    (points_coord.length : ℚ) * (calculateMapFocusPoint points_coord).x =
      (points_coord.map QPointF.x).sum ∧
    (points_coord.length : ℚ) * (calculateMapFocusPoint points_coord).y =
      (points_coord.map QPointF.y).sum := by
  have hx := foldl_add_eq_sum QPointF.x points_coord 0
  have hy := foldl_add_eq_sum QPointF.y points_coord 0
  have hlen : (points_coord.length : ℚ) ≠ 0 := by
    simp [List.length_eq_zero, h]
  refine ⟨?_, ?_, ?_⟩
  · simp [calculateMapFocusPoint, hx, hy]
  · simp only [calculateMapFocusPoint, hx, hy, zero_add]
    field_simp
  · simp only [calculateMapFocusPoint, hx, hy, zero_add]
    field_simp

/-- C10 witness: the theorem applied to the two-point list (1,2), (3,4); the
mean is (2,3). -/
theorem calculateMapFocusPoint_is_mean_witness :
    ([⟨1, 2⟩, ⟨3, 4⟩] : List QPointF) ≠ [] ∧
    calculateMapFocusPoint [⟨1, 2⟩, ⟨3, 4⟩] =
      ⟨(([⟨1, 2⟩, ⟨3, 4⟩] : List QPointF).map QPointF.x).sum / 2,
        (([⟨1, 2⟩, ⟨3, 4⟩] : List QPointF).map QPointF.y).sum / 2⟩ :=
  ⟨by decide, (calculateMapFocusPoint_is_mean [⟨1, 2⟩, ⟨3, 4⟩] (by decide)).1⟩

end Theorems

end QMC
